import Mathlib

/-!
Shallow embedding of `summarize.py`: a directory-tree scanner that aggregates
JSON practice logs grouped by top-level domain folder, restricted to files
whose path encodes a date within a window `[cutoff, today]`.

Paths are modelled as lists of segments; the file system as a mutual
inductive tree; Python `date` objects as a record of naturals with the
validity predicate enforced by the `date` constructor (years 1..9999);
a raised exception that escapes a function is modelled as `Option.none`.
-/

namespace Summarize

/-- Calendar date, mirroring Python `datetime.date` fields. -/
structure Date where
  year : Nat
  month : Nat
  day : Nat
deriving DecidableEq, Repr

/-- Gregorian leap-year rule, as used by `calendar.monthrange`. -/
def isLeap (y : Nat) : Bool :=
  (y % 4 == 0 && y % 100 != 0) || (y % 400 == 0)

/-- Number of days in a month, as returned by `calendar.monthrange(y, m).1`. -/
def daysInMonth (y m : Nat) : Nat :=
  if m = 2 then (if isLeap y then 29 else 28)
  else if m = 4 ∨ m = 6 ∨ m = 9 ∨ m = 11 then 30
  else 31

/-- The check performed by the Python `date(y, m, d)` constructor:
`MINYEAR = 1 ≤ y ≤ 9999 = MAXYEAR`, valid month, day within month length. -/
def Date.valid (d : Date) : Bool :=
  1 ≤ d.year && d.year ≤ 9999 && 1 ≤ d.month && d.month ≤ 12
    && 1 ≤ d.day && d.day ≤ daysInMonth d.year d.month

/-- Python date comparison `a <= b`: lexicographic on (year, month, day). -/
def Date.ble (a b : Date) : Bool :=
  decide (a.year < b.year ∨ (a.year = b.year ∧
    (a.month < b.month ∨ (a.month = b.month ∧ a.day ≤ b.day))))

/-- Strict version of the date order, `a < b`. -/
def Date.blt (a b : Date) : Bool :=
  decide (a.year < b.year ∨ (a.year = b.year ∧
    (a.month < b.month ∨ (a.month = b.month ∧ a.day < b.day))))

/-- Zero-pad the decimal representation of `n` to width `w`,
as `date.isoformat` does for each field. -/
def padNum (w n : Nat) : String :=
  let s := toString n
  String.mk (List.replicate (w - s.length) '0') ++ s

/-- Python `date.isoformat()`: `YYYY-MM-DD`. -/
def Date.iso (d : Date) : String :=
  padNum 4 d.year ++ "-" ++ padNum 2 d.month ++ "-" ++ padNum 2 d.day

/-- The `while m <= 0: m += 12; y -= 1` loop of `months_ago`, with fuel
(the loop runs at most `months + 1` times). -/
def monthsAgoLoop : Nat → Int × Int → Int × Int
  | 0, ym => ym
  | fuel + 1, (y, m) => if m ≤ 0 then monthsAgoLoop fuel (y - 1, m + 12) else (y, m)

/-- `months_ago(d, months)` from the source.  `monthrange` / `date` raise for a
year outside 1..9999 (or a month outside 1..12, or day 0, possible only for an
invalid input date); since `months_ago` has no handler, a raise escapes and is
modelled as `none`. -/
def months_ago (d : Date) (months : Nat) : Option Date :=
  let ym := monthsAgoLoop (months + 1) ((d.year : Int), (d.month : Int) - (months : Int))
  let y := ym.1
  let m := ym.2
  if y < 1 || 9999 < y || m < 1 || 12 < m then none
  else
    let maxDay := daysInMonth y.toNat m.toNat
    if min d.day maxDay < 1 then none
    else some ⟨y.toNat, m.toNat, min d.day maxDay⟩

/-- Python `str.isdigit` restricted to ASCII decimal digits (the only case
exercised by path segments). -/
def strIsDigit (s : String) : Bool :=
  !s.toList.isEmpty && s.toList.all Char.isDigit

/-- `int(s)` for a string of decimal digits. -/
def strToNat (s : String) : Nat :=
  s.toList.foldl (fun acc c => acc * 10 + (c.toNat - '0'.toNat)) 0

/-- Index of the last occurrence of `c`, i.e. Python `str.rfind`. -/
def pyRFind : List Char → Char → Option Nat
  | [], _ => none
  | x :: xs, c =>
    match pyRFind xs c with
    | some i => some (i + 1)
    | none => if x = c then some 0 else none

/-- `pathlib.PurePath.suffix` of a final path component: the part from the
last dot, provided `0 < i < len(name) - 1`; otherwise empty. -/
def pySuffix (name : String) : String :=
  let cs := name.toList
  match pyRFind cs '.' with
  | some i => if 0 < i ∧ i + 1 < cs.length then String.mk (cs.drop i) else ""
  | none => ""

/-- `pathlib.PurePath.stem` of a final path component. -/
def pyStem (name : String) : String :=
  let cs := name.toList
  match pyRFind cs '.' with
  | some i => if 0 < i ∧ i + 1 < cs.length then String.mk (cs.take i) else name
  | none => name

/-- ASCII lower-casing, Python `str.lower` on the suffixes we compare. -/
def strLower (s : String) : String :=
  String.mk (s.toList.map Char.toLower)

/-- `is_json(path)`: the final component's suffix, lower-cased, is `.json`. -/
def is_json (path : List String) : Bool :=
  match path.getLast? with
  | some name => strLower (pySuffix name) == ".json"
  | none => false

/-- `fpath.relative_to(repo_path)`: strip `repo` as a segment-wise leading
part of `fpath`; `none` models the caught `ValueError`. -/
def relativeTo : List String → List String → Option (List String)
  | [], f => some f
  | _ :: _, [] => none
  | r :: rs, x :: xs => if x = r then relativeTo rs xs else none

/-- `parse_path_date(repo_path, fpath)`: expects the relative path to be
`[domain]/YYYY/MM/DD.json` with all-digit date parts forming a valid
calendar date; `none` models the `(None, None)` return. -/
def parse_path_date (repo fpath : List String) : Option (String × Date) :=
  match relativeTo repo fpath with
  | none => none
  | some parts =>
    match parts with
    | [domain, y, m, dd_json] =>
      if is_json fpath then
        if strIsDigit y && strIsDigit m then
          let dd := pyStem dd_json
          if strIsDigit dd then
            let d : Date := ⟨strToNat y, strToNat m, strToNat dd⟩
            if d.valid then some (domain, d) else none
          else none
        else none
      else none
    | _ => none

/-- Parsed JSON value (floats play no role in any claim; numbers are
modelled as integers). -/
inductive Json where
  | obj : List (String × Json) → Json
  | arr : List Json → Json
  | str : String → Json
  | num : Int → Json
  | bool : Bool → Json
  | null : Json

/-- `type(data).__name__` for a JSON root value. -/
def Json.typeName : Json → String
  | .obj _ => "dict"
  | .arr _ => "list"
  | .str _ => "str"
  | .num _ => "int"
  | .bool _ => "bool"
  | .null => "NoneType"

/-- What `json.load` yields for a file: a value, or a decode error with the
text interpolated into the `JSONDecodeError` message. -/
inductive Content where
  | json : Json → Content
  | malformed : String → Content

/-- A regular file: name, parseable content, and the ISO string that
`datetime.fromtimestamp(stat().st_mtime).isoformat()` yields for it. -/
structure FileNode where
  name : String
  content : Content
  mtime : String

mutual
/-- A directory with its regular files and subdirectories. -/
inductive DirTree where
  | node : String → List FileNode → DirForest → DirTree
/-- A list of sibling directories, in `os.walk` iteration order. -/
inductive DirForest where
  | nil : DirForest
  | cons : DirTree → DirForest → DirForest
end

/-- Name of a directory node. -/
def DirTree.name : DirTree → String
  | .node n _ _ => n

/-- Python dict `item[k] = v` on an association list with unique keys:
replace in place if present, else append. -/
def setKey : List (String × Json) → String → Json → List (String × Json)
  | [], k, v => [(k, v)]
  | (k', v') :: rest, k, v =>
    if k' = k then (k, v) :: rest else (k', v') :: setKey rest k v

/-- Dict lookup `item.get(k)`. -/
def getKey : List (String × Json) → String → Option Json
  | [], _ => none
  | (k', v') :: rest, k => if k' = k then some v' else getKey rest k

/-- Per-group bookkeeping record from `group_meta`. -/
structure GroupMeta where
  found_in_window : Nat
  parsed : Nat
  skipped : Nat
deriving DecidableEq, Repr

/-- `group_meta.setdefault(domain, zeros)` followed by mutating the entry. -/
def bumpMeta : List (String × GroupMeta) → String → (GroupMeta → GroupMeta) →
    List (String × GroupMeta)
  | [], d, f => [(d, f ⟨0, 0, 0⟩)]
  | (k, g) :: rest, d, f =>
    if k = d then (k, f g) :: rest else (k, g) :: bumpMeta rest d f

/-- `groups.setdefault(domain, []).append(item)`. -/
def appendItem : List (String × List (List (String × Json))) → String →
    List (String × Json) → List (String × List (List (String × Json)))
  | [], d, it => [(d, [it])]
  | (k, xs) :: rest, d, it =>
    if k = d then (k, xs ++ [it]) :: rest else (k, xs) :: appendItem rest d it

/-- The increments applied in the successful-parse branch. -/
def GroupMeta.addParsed (g : GroupMeta) : GroupMeta :=
  { g with found_in_window := g.found_in_window + 1, parsed := g.parsed + 1 }

/-- The increments applied in the two skip branches inside the window. -/
def GroupMeta.addSkipped (g : GroupMeta) : GroupMeta :=
  { g with found_in_window := g.found_in_window + 1, skipped := g.skipped + 1 }

/-- The mutable accumulators of `aggregate_logs`. -/
structure ScanState where
  groups : List (String × List (List (String × Json)))
  skipped_files : List String
  total_files_found : Nat
  total_parsed : Nat
  total_skipped : Nat
  total_within_window : Nat
  group_meta : List (String × GroupMeta)

/-- The accumulators as initialised before the walk. -/
def initState : ScanState := ⟨[], [], 0, 0, 0, 0, []⟩

/-- `str(path)` for a path given as segments. -/
def pathStr (segs : List String) : String :=
  String.intercalate "/" segs

/-- Lines 121-124 of the source: attach the provenance fields to an item. -/
def attachProvenance (item : List (String × Json)) (rel mtime domain : String)
    (fdate : Date) : List (String × Json) :=
  setKey (setKey (setKey (setKey item "_source_file" (.str rel))
    "_file_modified" (.str mtime)) "_group" (.str domain))
    "_log_date" (.str fdate.iso)

/-- Lines 114-119: normalize the JSON root.  A dict is used as-is, a list is
wrapped as `{"logs": list}`, anything else raises `ValueError` (handled by
the caller's generic `except`), modelled as `none`. -/
def rootItem : Json → Option (List (String × Json))
  | .obj kv => some kv
  | .arr xs => some [("logs", .arr xs)]
  | _ => none

/-- Lines 90-145: processing of one directory entry `fname` in a directory at
`rel` below the root.  Non-`.json` names are ignored; a candidate is counted,
classified, window-filtered, then parsed and attributed. -/
def stepFile (root : List String) (cutoff today : Date) (rel : List String)
    (st : ScanState) (f : FileNode) : ScanState :=
  let fpath := root ++ rel ++ [f.name]
  if !is_json fpath then st
  else
    let st := { st with total_files_found := st.total_files_found + 1 }
    match parse_path_date root fpath with
    | none =>
      { st with
        skipped_files := st.skipped_files ++
          [pathStr fpath ++ ": path does not match [domain]/YYYY/MM/DD.json"],
        total_skipped := st.total_skipped + 1 }
    | some (domain, fdate) =>
      if !(Date.ble cutoff fdate && Date.ble fdate today) then st
      else
        let st := { st with total_within_window := st.total_within_window + 1 }
        match f.content with
        | .malformed e =>
          { st with
            skipped_files := st.skipped_files ++
              [pathStr fpath ++ ": JSON decode error: " ++ e],
            total_skipped := st.total_skipped + 1,
            group_meta := bumpMeta st.group_meta domain GroupMeta.addSkipped }
        | .json v =>
          match rootItem v with
          | some item0 =>
            let item := attachProvenance item0 (pathStr (rel ++ [f.name]))
              f.mtime domain fdate
            { st with
              groups := appendItem st.groups domain item,
              group_meta := bumpMeta st.group_meta domain GroupMeta.addParsed,
              total_parsed := st.total_parsed + 1 }
          | none =>
            { st with
              skipped_files := st.skipped_files ++
                [pathStr fpath ++ ": Unsupported JSON root type: " ++ v.typeName],
              total_skipped := st.total_skipped + 1,
              group_meta := bumpMeta st.group_meta domain GroupMeta.addSkipped }

mutual
/-- The `os.walk` loop body for one directory at `rel` below the root: files
of the root itself are skipped (line 87's `continue`), then the pruned
subdirectories are walked depth-first. -/
def scanDir (root excludes : List String) (cutoff today : Date)
    (rel : List String) (st : ScanState) : DirTree → ScanState
  | .node _ files subs =>
    let st' := if rel.isEmpty then st
      else files.foldl (stepFile root cutoff today rel) st
    scanForest root excludes cutoff today rel st' subs
/-- Walk sibling directories in order, pruning names in the exclusion set
(line 83) before descending. -/
def scanForest (root excludes : List String) (cutoff today : Date)
    (rel : List String) (st : ScanState) : DirForest → ScanState
  | .nil => st
  | .cons t ts =>
    let st' := if excludes.contains t.name then st
      else scanDir root excludes cutoff today (rel ++ [t.name]) st t
    scanForest root excludes cutoff today rel st' ts
end

/-- The whole scan of `aggregate_logs` for a given window, starting from the
zeroed accumulators at the root of the tree. -/
def runScan (root excludes : List String) (cutoff today : Date)
    (tree : DirTree) : ScanState :=
  scanDir root excludes cutoff today [] initState tree

/-- `aggregate_logs` up to the report serialization: compute the cutoff with
`months_ago` (a raise there escapes) and run the scan. -/
def aggregate_logs (root excludes : List String) (months : Nat) (today : Date)
    (tree : DirTree) : Option ScanState :=
  (months_ago today months).map fun cutoff =>
    runScan root excludes cutoff today tree

mutual
/-- Remove every directory whose name is in the exclusion set, at any depth. -/
def pruneTree (excludes : List String) : DirTree → DirTree
  | .node n fs subs => .node n fs (pruneForest excludes subs)
/-- Forest version of `pruneTree`. -/
def pruneForest (excludes : List String) : DirForest → DirForest
  | .nil => .nil
  | .cons t ts =>
    if excludes.contains t.name then pruneForest excludes ts
    else .cons (pruneTree excludes t) (pruneForest excludes ts)
end

/-- One candidate file's contribution to the count of files whose derived
path date lies outside the window (the files line 107 silently drops). -/
def fileOutOfWindow (root : List String) (cutoff today : Date)
    (rel : List String) (f : FileNode) : Nat :=
  let fpath := root ++ rel ++ [f.name]
  if !is_json fpath then 0
  else
    match parse_path_date root fpath with
    | none => 0
    | some (_, fdate) =>
      if !(Date.ble cutoff fdate && Date.ble fdate today) then 1 else 0

mutual
/-- Count of silently-dropped out-of-window candidate files under one
directory, mirroring the walk (root files skipped, exclusions pruned). -/
def dirOutOfWindow (root excludes : List String) (cutoff today : Date)
    (rel : List String) : DirTree → Nat
  | .node _ files subs =>
    (if rel.isEmpty then 0
      else (files.map (fileOutOfWindow root cutoff today rel)).sum)
      + forestOutOfWindow root excludes cutoff today rel subs
/-- Forest version of `dirOutOfWindow`. -/
def forestOutOfWindow (root excludes : List String) (cutoff today : Date)
    (rel : List String) : DirForest → Nat
  | .nil => 0
  | .cons t ts =>
    (if excludes.contains t.name then 0
      else dirOutOfWindow root excludes cutoff today (rel ++ [t.name]) t)
      + forestOutOfWindow root excludes cutoff today rel ts
end

/-- Sum of one per-group counter over all groups of the report. -/
def metaSum (f : GroupMeta → Nat) : List (String × GroupMeta) → Nat
  | [] => 0
  | p :: rest => f p.2 + metaSum f rest

/-- The report builder's per-group `skipped` field for group `g`:
`group_meta.get(g, {}).get("skipped", 0)` (line 160). -/
def reportGroupSkipped (st : ScanState) (g : String) : Nat :=
  match st.group_meta.lookup g with
  | some gm => gm.skipped
  | none => 0

/-- The report builder's per-group `parsed` field for group `g` (line 159). -/
def reportGroupParsed (st : ScanState) (g : String) : Nat :=
  match st.group_meta.lookup g with
  | some gm => gm.parsed
  | none => 0

/-- Relation between the per-group counters and the global counters that the
scan maintains: `found_in_window` sums to `total_within_window`, `parsed`
sums to `total_parsed`, `skipped` sums to the within-window files that did
not parse, and never exceeds `total_skipped`. -/
def GroupSumInv (st : ScanState) : Prop :=
  metaSum (fun g => g.found_in_window) st.group_meta = st.total_within_window ∧
  metaSum (fun g => g.parsed) st.group_meta = st.total_parsed ∧
  metaSum (fun g => g.skipped) st.group_meta + st.total_parsed =
    st.total_within_window ∧
  metaSum (fun g => g.skipped) st.group_meta ≤ st.total_skipped

/-- The scan input used by the C4 counterexample: a single in-window file
whose source object already carries a `_group` key. -/
def collisionTree : DirTree :=
  .node "r" []
    (.cons (.node "math" []
      (.cons (.node "2024" []
        (.cons (.node "01"
          [⟨"15.json", .json (.obj [("_group", Json.num 1)]), "MT"⟩]
          .nil) .nil)) .nil)) .nil)

/-- The scan input used by the C2 theorems: one file at
`phys/2024/13/01.json`, month 13 being an invalid calendar date. -/
def invalidMonthTree : DirTree :=
  .node "r" []
    (.cons (.node "phys" []
      (.cons (.node "2024" []
        (.cons (.node "13" [⟨"01.json", .json (.obj []), "M"⟩] .nil) .nil))
        .nil)) .nil)

theorem Date.ble_false_iff_blt (a b : Date) :
    Date.ble a b = false ↔ Date.blt b a = true := by
  simp only [Date.ble, Date.blt, decide_eq_false_iff_not, decide_eq_true_eq]
  omega

theorem metaSum_bumpMeta (f : GroupMeta → Nat) (upd : GroupMeta → GroupMeta)
    (k : Nat) (hf : ∀ g, f (upd g) = f g + k) (hz : f ⟨0, 0, 0⟩ = 0)
    (l : List (String × GroupMeta)) (d : String) :
    metaSum f (bumpMeta l d upd) = metaSum f l + k := by
  induction l with
  | nil => simp [bumpMeta, metaSum, hf, hz]
  | cons p rest ih =>
    obtain ⟨k', g⟩ := p
    by_cases h : k' = d
    · simp [bumpMeta, h, metaSum, hf]
      omega
    · simp [bumpMeta, h, metaSum, ih]
      omega

theorem metaSum_addParsed_fiw (l : List (String × GroupMeta)) (d : String) :
    metaSum (fun g => g.found_in_window) (bumpMeta l d GroupMeta.addParsed) =
      metaSum (fun g => g.found_in_window) l + 1 :=
  metaSum_bumpMeta _ _ 1 (fun _ => rfl) rfl l d

theorem metaSum_addParsed_parsed (l : List (String × GroupMeta)) (d : String) :
    metaSum (fun g => g.parsed) (bumpMeta l d GroupMeta.addParsed) =
      metaSum (fun g => g.parsed) l + 1 :=
  metaSum_bumpMeta _ _ 1 (fun _ => rfl) rfl l d

theorem metaSum_addParsed_skipped (l : List (String × GroupMeta)) (d : String) :
    metaSum (fun g => g.skipped) (bumpMeta l d GroupMeta.addParsed) =
      metaSum (fun g => g.skipped) l + 0 :=
  metaSum_bumpMeta _ GroupMeta.addParsed 0 (fun _ => rfl) rfl l d

theorem metaSum_addSkipped_fiw (l : List (String × GroupMeta)) (d : String) :
    metaSum (fun g => g.found_in_window) (bumpMeta l d GroupMeta.addSkipped) =
      metaSum (fun g => g.found_in_window) l + 1 :=
  metaSum_bumpMeta _ _ 1 (fun _ => rfl) rfl l d

theorem metaSum_addSkipped_parsed (l : List (String × GroupMeta)) (d : String) :
    metaSum (fun g => g.parsed) (bumpMeta l d GroupMeta.addSkipped) =
      metaSum (fun g => g.parsed) l + 0 :=
  metaSum_bumpMeta _ GroupMeta.addSkipped 0 (fun _ => rfl) rfl l d

theorem metaSum_addSkipped_skipped (l : List (String × GroupMeta)) (d : String) :
    metaSum (fun g => g.skipped) (bumpMeta l d GroupMeta.addSkipped) =
      metaSum (fun g => g.skipped) l + 1 :=
  metaSum_bumpMeta _ _ 1 (fun _ => rfl) rfl l d

theorem foldl_preserves {α β : Type} (step : β → α → β) (P : β → Prop)
    (h : ∀ st a, P st → P (step st a)) :
    ∀ (l : List α) (st : β), P st → P (l.foldl step st) := by
  intro l
  induction l with
  | nil => intro st hst; simpa using hst
  | cons a l ih =>
    intro st hst
    simpa using ih (step st a) (h st a hst)

mutual
/-- Any per-state property preserved by `stepFile` is preserved by the walk
of a directory. -/
theorem scanDir_preserves (root excludes : List String) (cutoff today : Date)
    (P : ScanState → Prop)
    (h : ∀ rel st f, P st → P (stepFile root cutoff today rel st f)) :
    ∀ (t : DirTree) (rel : List String) (st : ScanState), P st →
      P (scanDir root excludes cutoff today rel st t)
  | .node n files subs, rel, st, hst => by
    unfold scanDir
    apply scanForest_preserves root excludes cutoff today P h subs rel
    split
    · exact hst
    · exact foldl_preserves _ P (fun st f => h rel st f) files st hst
/-- Forest version of `scanDir_preserves`. -/
theorem scanForest_preserves (root excludes : List String) (cutoff today : Date)
    (P : ScanState → Prop)
    (h : ∀ rel st f, P st → P (stepFile root cutoff today rel st f)) :
    ∀ (ts : DirForest) (rel : List String) (st : ScanState), P st →
      P (scanForest root excludes cutoff today rel st ts)
  | .nil, _, st, hst => hst
  | .cons t ts, rel, st, hst => by
    unfold scanForest
    apply scanForest_preserves root excludes cutoff today P h ts rel
    split
    · exact hst
    · exact scanDir_preserves root excludes cutoff today P h t (rel ++ [t.name]) st hst
end

theorem stepFile_groupSumInv (root : List String) (cutoff today : Date)
    (rel : List String) (st : ScanState) (f : FileNode) (h : GroupSumInv st) :
    GroupSumInv (stepFile root cutoff today rel st f) := by
  obtain ⟨h1, h2, h3, h4⟩ := h
  unfold stepFile
  dsimp only
  repeat' split
  all_goals refine ⟨?_, ?_, ?_, ?_⟩
  all_goals
    try simp only [metaSum_addSkipped_fiw, metaSum_addSkipped_parsed,
      metaSum_addSkipped_skipped, metaSum_addParsed_fiw, metaSum_addParsed_parsed,
      metaSum_addParsed_skipped]
  all_goals omega

theorem runScan_groupSumInv (root excludes : List String) (cutoff today : Date)
    (tree : DirTree) : GroupSumInv (runScan root excludes cutoff today tree) :=
  scanDir_preserves root excludes cutoff today GroupSumInv
    (stepFile_groupSumInv root cutoff today) tree [] initState
    ⟨rfl, rfl, rfl, Nat.le_refl 0⟩

theorem stepFile_conservation (root : List String) (cutoff today : Date)
    (rel : List String) (st : ScanState) (f : FileNode) :
    (stepFile root cutoff today rel st f).total_parsed +
      (stepFile root cutoff today rel st f).total_skipped +
      fileOutOfWindow root cutoff today rel f + st.total_files_found =
    st.total_parsed + st.total_skipped +
      (stepFile root cutoff today rel st f).total_files_found := by
  unfold stepFile fileOutOfWindow
  dsimp only
  repeat' split
  all_goals try dsimp only
  all_goals omega

theorem foldlFiles_conservation (root : List String) (cutoff today : Date)
    (rel : List String) :
    ∀ (files : List FileNode) (st : ScanState),
      (files.foldl (stepFile root cutoff today rel) st).total_parsed +
        (files.foldl (stepFile root cutoff today rel) st).total_skipped +
        (files.map (fileOutOfWindow root cutoff today rel)).sum +
        st.total_files_found =
      st.total_parsed + st.total_skipped +
        (files.foldl (stepFile root cutoff today rel) st).total_files_found := by
  intro files
  induction files with
  | nil => intro st; simp
  | cons f fs ih =>
    intro st
    have h1 := stepFile_conservation root cutoff today rel st f
    have h2 := ih (stepFile root cutoff today rel st f)
    simp only [List.foldl_cons, List.map_cons, List.sum_cons]
    omega

mutual
/-- Every candidate file under one directory is counted exactly once as
parsed, skipped, or silently out-of-window. -/
theorem scanDir_conservation (root excludes : List String)
    (cutoff today : Date) :
    ∀ (t : DirTree) (rel : List String) (st : ScanState),
      (scanDir root excludes cutoff today rel st t).total_parsed +
        (scanDir root excludes cutoff today rel st t).total_skipped +
        dirOutOfWindow root excludes cutoff today rel t +
        st.total_files_found =
      st.total_parsed + st.total_skipped +
        (scanDir root excludes cutoff today rel st t).total_files_found
  | .node n files subs, rel, st => by
    unfold scanDir dirOutOfWindow
    dsimp only
    by_cases hr : rel.isEmpty
    · rw [if_pos hr, if_pos hr]
      have hf := scanForest_conservation root excludes cutoff today subs rel st
      omega
    · rw [if_neg hr, if_neg hr]
      have hf := scanForest_conservation root excludes cutoff today subs rel
        (files.foldl (stepFile root cutoff today rel) st)
      have hff := foldlFiles_conservation root cutoff today rel files st
      omega
/-- Forest version of `scanDir_conservation`. -/
theorem scanForest_conservation (root excludes : List String)
    (cutoff today : Date) :
    ∀ (ts : DirForest) (rel : List String) (st : ScanState),
      (scanForest root excludes cutoff today rel st ts).total_parsed +
        (scanForest root excludes cutoff today rel st ts).total_skipped +
        forestOutOfWindow root excludes cutoff today rel ts +
        st.total_files_found =
      st.total_parsed + st.total_skipped +
        (scanForest root excludes cutoff today rel st ts).total_files_found
  | .nil, rel, st => by
    unfold scanForest forestOutOfWindow
    omega
  | .cons t ts, rel, st => by
    unfold scanForest forestOutOfWindow
    dsimp only
    by_cases hc : excludes.contains t.name
    · rw [if_pos hc, if_pos hc]
      have hf := scanForest_conservation root excludes cutoff today ts rel st
      omega
    · rw [if_neg hc, if_neg hc]
      have hd := scanDir_conservation root excludes cutoff today t
        (rel ++ [t.name]) st
      have hf := scanForest_conservation root excludes cutoff today ts rel
        (scanDir root excludes cutoff today (rel ++ [t.name]) st t)
      omega
end

theorem pruneTree_name (excludes : List String) (t : DirTree) :
    (pruneTree excludes t).name = t.name := by
  cases t
  rfl

mutual
/-- Scanning a tree equals scanning the tree with all excluded-name
directories removed. -/
theorem scanDir_prune (root excludes : List String) (cutoff today : Date) :
    ∀ (t : DirTree) (rel : List String) (st : ScanState),
      scanDir root excludes cutoff today rel st (pruneTree excludes t) =
        scanDir root excludes cutoff today rel st t
  | .node n files subs, rel, st => by
    unfold pruneTree scanDir
    dsimp only
    exact scanForest_prune root excludes cutoff today subs rel _
/-- Forest version of `scanDir_prune`. -/
theorem scanForest_prune (root excludes : List String) (cutoff today : Date) :
    ∀ (ts : DirForest) (rel : List String) (st : ScanState),
      scanForest root excludes cutoff today rel st (pruneForest excludes ts) =
        scanForest root excludes cutoff today rel st ts
  | .nil, _, _ => rfl
  | .cons t ts, rel, st => by
    unfold pruneForest
    by_cases hc : excludes.contains t.name
    · rw [if_pos hc]
      rw [scanForest_prune root excludes cutoff today ts rel st]
      conv_rhs => unfold scanForest
      dsimp only
      rw [if_pos hc]
    · rw [if_neg hc]
      conv_lhs => unfold scanForest
      conv_rhs => unfold scanForest
      dsimp only
      rw [pruneTree_name, if_neg hc,
        scanDir_prune root excludes cutoff today t (rel ++ [t.name]) st,
        scanForest_prune root excludes cutoff today ts rel _, if_neg hc]
end

theorem Date.ble_refl (d : Date) : Date.ble d d = true := by
  simp [Date.ble]

theorem parse_path_date_some_is_json (repo fpath : List String)
    (x : String × Date) (h : parse_path_date repo fpath = some x) :
    is_json fpath = true := by
  unfold parse_path_date at h
  repeat' split at h
  all_goals simp_all

theorem daysInMonth_pos (y m : Nat) : 1 ≤ daysInMonth y m := by
  unfold daysInMonth
  repeat' split
  all_goals omega

theorem monthsAgoLoop_eq (Y M : Int) : ∀ (fuel : Nat) (y m : Int),
    12 * y + m = 12 * Y + M → 1 ≤ M → M ≤ 12 → m ≤ 12 → M ≤ m + 12 * fuel →
    monthsAgoLoop fuel (y, m) = (Y, M) := by
  intro fuel
  induction fuel with
  | zero =>
    intro y m h1 h2 h3 h4 h5
    unfold monthsAgoLoop
    have h : y = Y ∧ m = M := by omega
    rw [h.1, h.2]
  | succ k ih =>
    intro y m h1 h2 h3 h4 h5
    unfold monthsAgoLoop
    by_cases hm : m ≤ 0
    · rw [if_pos hm]
      exact ih (y - 1) (m + 12) (by omega) h2 h3 (by omega) (by omega)
    · rw [if_neg hm]
      have h : y = Y ∧ m = M := by omega
      rw [h.1, h.2]

theorem Date.valid_fields (d : Date) (hd : d.valid = true) :
    1 ≤ d.year ∧ d.year ≤ 9999 ∧ 1 ≤ d.month ∧ d.month ≤ 12 ∧
      1 ≤ d.day ∧ d.day ≤ daysInMonth d.year d.month := by
  simpa [Date.valid, Bool.and_eq_true, decide_eq_true_eq, and_assoc] using hd

/-- C6 (amended): for a valid date and a positive month count whose target
month still lies in year ≥ 1, `months_ago` returns exactly the calendar
month `n` months earlier with the day clamped to that month's length. -/
theorem months_ago_calendar_shift (d : Date) (n Y M : Nat)
    (hd : d.valid = true) (hn : 1 ≤ n) (hY : 1 ≤ Y) (hM1 : 1 ≤ M) (hM2 : M ≤ 12)
    (heq : 12 * Y + M + n = 12 * d.year + d.month) :
    months_ago d n = some ⟨Y, M, min d.day (daysInMonth Y M)⟩ := by
  obtain ⟨hy1, hy2, hm1, hm2, hd1, hd2⟩ := Date.valid_fields d hd
  have hY2 : Y ≤ 9999 := by omega
  unfold months_ago
  dsimp only
  rw [monthsAgoLoop_eq (Y : Int) (M : Int) (n + 1) (d.year : Int)
    ((d.month : Int) - (n : Int)) (by omega) (by omega)
    (by omega) (by omega) (by omega)]
  dsimp only
  have hg1 : ((Y : Int) < 1 || 9999 < (Y : Int) || (M : Int) < 1 ||
      12 < (M : Int)) = false := by
    simp only [Bool.or_eq_false_iff, decide_eq_false_iff_not, not_lt]
    refine ⟨⟨⟨?_, ?_⟩, ?_⟩, ?_⟩ <;> omega
  rw [hg1]
  simp only [Bool.false_eq_true, if_false, Int.toNat_natCast]
  have hpos := daysInMonth_pos Y M
  rw [if_neg (by omega)]

theorem stringMk_toList (s : String) : String.mk s.toList = s := by
  cases s
  rfl

theorem pyRFind_append_right (xs ys : List Char) (c : Char) (i : Nat)
    (h : pyRFind ys c = some i) :
    pyRFind (xs ++ ys) c = some (xs.length + i) := by
  induction xs with
  | nil => simpa using h
  | cons x xs ih =>
    simp only [List.cons_append, pyRFind, List.append_eq, ih, List.length_cons]
    congr 1
    omega

theorem relativeTo_append (root xs : List String) :
    relativeTo root (root ++ xs) = some xs := by
  induction root with
  | nil => rfl
  | cons r rs ih =>
    simp only [List.cons_append, relativeTo, if_pos rfl]
    exact ih

theorem toList_append_eq (a b : String) :
    (a ++ b).toList = a.toList ++ b.toList := by
  cases a
  cases b
  rfl

theorem digits_toList_ne_nil (s : String) (h : strIsDigit s = true) :
    s.toList ≠ [] := by
  unfold strIsDigit at h
  simp only [Bool.and_eq_true, Bool.not_eq_eq_eq_not, Bool.not_true] at h
  intro hnil
  rw [hnil] at h
  simp [List.isEmpty] at h

theorem pyRFind_digits_json (dd : String) :
    pyRFind ((dd ++ ".json").toList) '.' = some dd.toList.length := by
  rw [toList_append_eq]
  have h5 := pyRFind_append_right dd.toList (".json".toList) '.' 0 (by rfl)
  simpa using h5

theorem pyStem_digits_json (dd : String) (h : strIsDigit dd = true) :
    pyStem (dd ++ ".json") = dd := by
  have hne := digits_toList_ne_nil dd h
  have hlen : 0 < dd.toList.length := List.length_pos.mpr hne
  have hc : (dd ++ ".json").toList.length = dd.toList.length + 5 := by
    rw [toList_append_eq, List.length_append]
    rfl
  unfold pyStem
  dsimp only
  rw [pyRFind_digits_json dd]
  dsimp only
  rw [if_pos ⟨hlen, by omega⟩, toList_append_eq, List.take_left, stringMk_toList]

theorem pySuffix_digits_json (dd : String) (h : strIsDigit dd = true) :
    pySuffix (dd ++ ".json") = ".json" := by
  have hne := digits_toList_ne_nil dd h
  have hlen : 0 < dd.toList.length := List.length_pos.mpr hne
  have hc : (dd ++ ".json").toList.length = dd.toList.length + 5 := by
    rw [toList_append_eq, List.length_append]
    rfl
  unfold pySuffix
  dsimp only
  rw [pyRFind_digits_json dd]
  dsimp only
  rw [if_pos ⟨hlen, by omega⟩, toList_append_eq, List.drop_left]
  rfl

theorem is_json_digits_json (pre : List String) (dd : String)
    (h : strIsDigit dd = true) :
    is_json (pre ++ [dd ++ ".json"]) = true := by
  unfold is_json
  rw [List.getLast?_concat]
  dsimp only
  rw [pySuffix_digits_json dd h]
  rfl

theorem setKey_append (l : List (String × Json)) (k : String) (v : Json)
    (h : ∀ p ∈ l, p.1 ≠ k) : setKey l k v = l ++ [(k, v)] := by
  induction l with
  | nil => rfl
  | cons p rest ih =>
    obtain ⟨k', v'⟩ := p
    have hk : k' ≠ k := h (k', v') (by simp)
    simp only [setKey, if_neg hk, List.cons_append]
    rw [ih (fun q hq => h q (by simp [hq]))]

theorem attachProvenance_disjoint (item : List (String × Json))
    (rel mtime domain : String) (fdate : Date)
    (h : ∀ p ∈ item, p.1 ∉ (["_source_file", "_file_modified", "_group",
      "_log_date"] : List String)) :
    attachProvenance item rel mtime domain fdate =
      item ++ [("_source_file", .str rel), ("_file_modified", .str mtime),
        ("_group", .str domain), ("_log_date", .str fdate.iso)] := by
  have hsplit : ∀ p ∈ item, p.1 ≠ "_source_file" ∧ p.1 ≠ "_file_modified" ∧
      p.1 ≠ "_group" ∧ p.1 ≠ "_log_date" := by
    intro p hp
    have hn := h p hp
    simp only [List.mem_cons, List.not_mem_nil, or_false, not_or] at hn
    exact hn
  have e1 : setKey item "_source_file" (.str rel) =
      item ++ [("_source_file", Json.str rel)] :=
    setKey_append _ _ _ (fun p hp => (hsplit p hp).1)
  have e2 : setKey (item ++ [("_source_file", Json.str rel)])
      "_file_modified" (.str mtime) =
      (item ++ [("_source_file", Json.str rel)]) ++
        [("_file_modified", Json.str mtime)] := by
    refine setKey_append _ _ _ ?_
    intro p hp
    rcases List.mem_append.mp hp with hp1 | hp2
    · exact (hsplit p hp1).2.1
    · simp only [List.mem_singleton] at hp2
      subst hp2
      simp
  have e3 : setKey ((item ++ [("_source_file", Json.str rel)]) ++
        [("_file_modified", Json.str mtime)]) "_group" (.str domain) =
      ((item ++ [("_source_file", Json.str rel)]) ++
        [("_file_modified", Json.str mtime)]) ++
        [("_group", Json.str domain)] := by
    refine setKey_append _ _ _ ?_
    intro p hp
    rcases List.mem_append.mp hp with hp1 | hp2
    · rcases List.mem_append.mp hp1 with hp3 | hp4
      · exact (hsplit p hp3).2.2.1
      · simp only [List.mem_singleton] at hp4
        subst hp4
        simp
    · simp only [List.mem_singleton] at hp2
      subst hp2
      simp
  have e4 : setKey (((item ++ [("_source_file", Json.str rel)]) ++
        [("_file_modified", Json.str mtime)]) ++
        [("_group", Json.str domain)]) "_log_date" (.str fdate.iso) =
      (((item ++ [("_source_file", Json.str rel)]) ++
        [("_file_modified", Json.str mtime)]) ++
        [("_group", Json.str domain)]) ++
        [("_log_date", Json.str fdate.iso)] := by
    refine setKey_append _ _ _ ?_
    intro p hp
    rcases List.mem_append.mp hp with hp1 | hp2
    · rcases List.mem_append.mp hp1 with hp3 | hp4
      · rcases List.mem_append.mp hp3 with hp5 | hp6
        · exact (hsplit p hp5).2.2.2
        · simp only [List.mem_singleton] at hp6
          subst hp6
          simp
      · simp only [List.mem_singleton] at hp4
        subst hp4
        simp
    · simp only [List.mem_singleton] at hp2
      subst hp2
      simp
  unfold attachProvenance
  rw [e1, e2, e3, e4]
  simp

/-- C7: path classification is total: for every root and candidate path it
yields either the explicit no-match result or a domain paired with a valid
calendar date; every structural or validity failure lands on no-match
rather than an error. -/
theorem parse_path_date_never_raises (repo fpath : List String) :
    parse_path_date repo fpath = none ∨
      ∃ domain d, parse_path_date repo fpath = some (domain, d) ∧
        d.valid = true := by
  unfold parse_path_date
  dsimp only
  repeat' split
  all_goals try exact Or.inl rfl
  rename_i hvalid
  exact Or.inr ⟨_, _, rfl, hvalid⟩

/-- C5: the date window is inclusive at both ends: with a derived path date
equal to the cutoff (or to today, when the window is nonempty) the file is
counted within the window, while a date strictly before the cutoff or
strictly after today leaves every accumulator except `total_files_found`
untouched. -/
theorem window_boundary_inclusive (root rel : List String)
    (cutoff today : Date) (st : ScanState) (f : FileNode) (dom : String)
    (d : Date)
    (hp : parse_path_date root (root ++ rel ++ [f.name]) = some (dom, d)) :
    (d = cutoff → Date.ble cutoff today = true →
      (stepFile root cutoff today rel st f).total_within_window =
        st.total_within_window + 1) ∧
    (Date.blt d cutoff = true →
      stepFile root cutoff today rel st f =
        { st with total_files_found := st.total_files_found + 1 }) ∧
    (d = today → Date.ble cutoff today = true →
      (stepFile root cutoff today rel st f).total_within_window =
        st.total_within_window + 1) ∧
    (Date.blt today d = true →
      stepFile root cutoff today rel st f =
        { st with total_files_found := st.total_files_found + 1 }) := by
  have hj := parse_path_date_some_is_json root (root ++ rel ++ [f.name])
    (dom, d) hp
  refine ⟨?_, ?_, ?_, ?_⟩
  · intro hd hle
    subst hd
    unfold stepFile
    simp only [hj, hp, Bool.not_true, Bool.false_eq_true, if_false,
      Date.ble_refl, hle, Bool.and_self, Bool.and_true, Bool.true_and]
    repeat' split
    all_goals rfl
  · intro hlt
    have hbf := (Date.ble_false_iff_blt cutoff d).mpr hlt
    unfold stepFile
    simp only [hj, hp, Bool.not_true, Bool.false_eq_true, if_false, hbf,
      Bool.false_and, Bool.not_false, if_true]
  · intro hd hle
    subst hd
    unfold stepFile
    simp only [hj, hp, Bool.not_true, Bool.false_eq_true, if_false,
      Date.ble_refl, hle, Bool.and_self, Bool.and_true, Bool.true_and]
    repeat' split
    all_goals rfl
  · intro hlt
    have hbf := (Date.ble_false_iff_blt d today).mpr hlt
    unfold stepFile
    simp only [hj, hp, Bool.not_true, Bool.false_eq_true, if_false, hbf,
      Bool.and_false, Bool.not_false, if_true]

/-- C4 (amended): for every successfully parsed in-window object file whose
top-level keys avoid the four provenance names, the item appended to the
file's group is exactly the original key-value pairs followed by the four
provenance keys; keys that collide with provenance names are overwritten
instead (see the counterexample). -/
theorem parsed_item_keys_roundtrip (root rel : List String)
    (cutoff today : Date) (st : ScanState) (name mtime : String)
    (kv : List (String × Json)) (dom : String) (d : Date)
    (hp : parse_path_date root (root ++ rel ++ [name]) = some (dom, d))
    (hw : (Date.ble cutoff d && Date.ble d today) = true)
    (hkeys : ∀ p ∈ kv, p.1 ∉ (["_source_file", "_file_modified", "_group",
      "_log_date"] : List String)) :
    (stepFile root cutoff today rel st ⟨name, .json (.obj kv), mtime⟩).groups =
      appendItem st.groups dom (kv ++
        [("_source_file", Json.str (pathStr (rel ++ [name]))),
         ("_file_modified", Json.str mtime),
         ("_group", Json.str dom),
         ("_log_date", Json.str d.iso)]) := by
  have hj := parse_path_date_some_is_json root (root ++ rel ++ [name])
    (dom, d) hp
  unfold stepFile
  simp only [hj, hp, hw, Bool.not_true, Bool.false_eq_true, if_false]
  dsimp only [rootItem]
  rw [attachProvenance_disjoint kv _ _ _ _ hkeys]

/-- Witness for C4: a file `math/2024/01/15.json` with content
`{"score": 90}` lands in group `math` with its key and exactly the four
provenance keys. -/
theorem parsed_item_keys_roundtrip_witness :
    (stepFile ["r"] ⟨2023, 12, 1⟩ ⟨2024, 2, 1⟩ ["math", "2024", "01"]
      initState
      ⟨"15.json", .json (.obj [("score", Json.num 90)]), "MT"⟩).groups =
      appendItem initState.groups "math"
        ([("score", Json.num 90)] ++
          [("_source_file", Json.str (pathStr (["math", "2024", "01"] ++
            ["15.json"]))),
           ("_file_modified", Json.str "MT"),
           ("_group", Json.str "math"),
           ("_log_date", Json.str (Date.iso ⟨2024, 1, 15⟩))]) := by
  refine parsed_item_keys_roundtrip ["r"] ["math", "2024", "01"]
    ⟨2023, 12, 1⟩ ⟨2024, 2, 1⟩ initState "15.json" "MT"
    [("score", Json.num 90)] "math" ⟨2024, 1, 15⟩ (by rfl) (by rfl) ?_
  intro p hp
  simp only [List.mem_singleton] at hp
  subst hp
  decide

/-- C4 counterexample: a source key colliding with a provenance name is
overwritten, so the original value is lost — the emitted item maps
`_group` to the group string, not to the source's value `1`. -/
theorem provenance_overwrite_counterexample :
    (runScan ["r"] [] ⟨2023, 12, 1⟩ ⟨2024, 2, 1⟩ collisionTree).groups.map
        (fun p => (p.1, p.2.map (fun item => getKey item "_group"))) =
      [("math", [some (Json.str "math")])] ∧
    Json.str "math" ≠ Json.num 1 :=
  ⟨rfl, fun h => Json.noConfusion h⟩

/-- C1 (amended): per-group `found_in_window` sums to
`total_within_window` and per-group `parsed` sums to `total_parsed`; the
per-group `skipped` counters sum to `total_within_window - total_parsed`,
which is `total_skipped` minus the structural-mismatch skips that belong to
no group (so the skipped sum is only bounded by `total_skipped`). -/
theorem group_counters_sum_to_globals (root excludes : List String)
    (cutoff today : Date) (tree : DirTree) :
    metaSum (fun g => g.found_in_window)
        (runScan root excludes cutoff today tree).group_meta =
      (runScan root excludes cutoff today tree).total_within_window ∧
    metaSum (fun g => g.parsed)
        (runScan root excludes cutoff today tree).group_meta =
      (runScan root excludes cutoff today tree).total_parsed ∧
    metaSum (fun g => g.skipped)
        (runScan root excludes cutoff today tree).group_meta +
        (runScan root excludes cutoff today tree).total_parsed =
      (runScan root excludes cutoff today tree).total_within_window ∧
    metaSum (fun g => g.skipped)
        (runScan root excludes cutoff today tree).group_meta ≤
      (runScan root excludes cutoff today tree).total_skipped :=
  runScan_groupSumInv root excludes cutoff today tree

/-- C1 counterexample: one structurally mismatched file makes
`total_skipped = 1` while every group's skipped counter sums to `0`, so
the group skipped counters do not sum to the global `total_skipped`. -/
theorem group_skipped_sum_counterexample :
    metaSum (fun g => g.skipped)
      (runScan ["r"] [] ⟨2024, 1, 1⟩ ⟨2024, 12, 31⟩
        (.node "r" []
          (.cons (.node "alg" [⟨"note.json", .json (.obj []), "M"⟩] .nil)
            .nil))).group_meta = 0 ∧
    (runScan ["r"] [] ⟨2024, 1, 1⟩ ⟨2024, 12, 31⟩
      (.node "r" []
        (.cons (.node "alg" [⟨"note.json", .json (.obj []), "M"⟩] .nil)
          .nil))).total_skipped = 1 :=
  ⟨rfl, rfl⟩

/-- C3: every candidate `.json` file strictly below the root is counted
exactly once: `total_files_found` equals `total_parsed + total_skipped`
plus the candidates whose derived path date falls outside the window. -/
theorem candidate_file_conservation (root excludes : List String)
    (cutoff today : Date) (tree : DirTree) :
    (runScan root excludes cutoff today tree).total_files_found =
      (runScan root excludes cutoff today tree).total_parsed +
        (runScan root excludes cutoff today tree).total_skipped +
        dirOutOfWindow root excludes cutoff today [] tree := by
  have h := scanDir_conservation root excludes cutoff today tree [] initState
  have h0p : initState.total_parsed = 0 := rfl
  have h0s : initState.total_skipped = 0 := rfl
  have h0f : initState.total_files_found = 0 := rfl
  rw [h0p, h0s, h0f] at h
  unfold runScan
  omega

/-- C2 counterexample: for `phys/2024/13/01.json` the skip is recorded
globally, but the `phys` group's skipped counter stays `0` — it is not
incremented, contrary to the claim. -/
theorem invalid_month_no_group_counter_counterexample :
    (runScan ["r"] [] ⟨2024, 1, 1⟩ ⟨2024, 12, 31⟩
      invalidMonthTree).total_skipped = 1 ∧
    reportGroupSkipped
      (runScan ["r"] [] ⟨2024, 1, 1⟩ ⟨2024, 12, 31⟩ invalidMonthTree)
      "phys" = 0 :=
  ⟨rfl, rfl⟩

/-- C2 (amended): for `phys/2024/13/01.json` the scan records a skip with
the structural-mismatch message and increments `total_skipped`, but touches
no group counter at all: the `phys` group's parsed and skipped counters
both stay `0` because the group is unknown for a mismatched path. -/
theorem invalid_month_structural_skip :
    (runScan ["r"] [] ⟨2024, 1, 1⟩ ⟨2024, 12, 31⟩
        invalidMonthTree).skipped_files =
      ["r/phys/2024/13/01.json: path does not match [domain]/YYYY/MM/DD.json"] ∧
    (runScan ["r"] [] ⟨2024, 1, 1⟩ ⟨2024, 12, 31⟩
      invalidMonthTree).total_skipped = 1 ∧
    reportGroupParsed
      (runScan ["r"] [] ⟨2024, 1, 1⟩ ⟨2024, 12, 31⟩ invalidMonthTree)
      "phys" = 0 ∧
    reportGroupSkipped
      (runScan ["r"] [] ⟨2024, 1, 1⟩ ⟨2024, 12, 31⟩ invalidMonthTree)
      "phys" = 0 :=
  ⟨rfl, rfl, rfl, rfl⟩

/-- C6 counterexample: `months_ago` applied to the valid date 0001-01-31
with one month raises (the target month lies before year 1, and Python's
`date`/`monthrange` reject year 0), so it does not return the date one
month earlier for every date and positive month count. -/
theorem months_ago_year_underflow_counterexample :
    (⟨1, 1, 31⟩ : Date).valid = true ∧ months_ago ⟨1, 1, 31⟩ 1 = none :=
  ⟨by decide, by decide⟩

/-- Witness for C6: Jan 31 minus one month is Dec 31; Mar 31 minus one
month is Feb 29 in a leap year and Feb 28 otherwise. -/
theorem months_ago_calendar_shift_witness :
    months_ago ⟨2024, 1, 31⟩ 1 = some ⟨2023, 12, 31⟩ ∧
    months_ago ⟨2024, 3, 31⟩ 1 = some ⟨2024, 2, 29⟩ ∧
    months_ago ⟨2023, 3, 31⟩ 1 = some ⟨2023, 2, 28⟩ := by
  refine ⟨?_, ?_, ?_⟩
  · exact months_ago_calendar_shift ⟨2024, 1, 31⟩ 1 2023 12 (by decide)
      (by decide) (by decide) (by decide) (by decide) (by decide)
  · exact months_ago_calendar_shift ⟨2024, 3, 31⟩ 1 2024 2 (by decide)
      (by decide) (by decide) (by decide) (by decide) (by decide)
  · exact months_ago_calendar_shift ⟨2023, 3, 31⟩ 1 2023 2 (by decide)
      (by decide) (by decide) (by decide) (by decide) (by decide)

/-- C8: a directory whose name is in the exclusion set is never descended
into anywhere in the tree: the scan of a tree equals the scan of the tree
with every excluded-name subtree removed, so no file inside an excluded
subtree contributes to any counter, group, or error list. -/
theorem excluded_dirs_contribute_nothing (root excludes : List String)
    (cutoff today : Date) (tree : DirTree) :
    runScan root excludes cutoff today tree =
      runScan root excludes cutoff today (pruneTree excludes tree) :=
  (scanDir_prune root excludes cutoff today tree [] initState).symm

/-- C9: files directly in the root directory are never candidates: the
scan result does not depend on the root's own file list at all, so such a
file appears in no counter, group, or error list. -/
theorem root_level_files_never_candidates (root excludes : List String)
    (cutoff today : Date) (name : String) (files files' : List FileNode)
    (subs : DirForest) :
    runScan root excludes cutoff today (.node name files subs) =
      runScan root excludes cutoff today (.node name files' subs) := by
  unfold runScan scanDir
  rfl

/-- C10: path classification needs no fixed-width date segments: any
all-digit strings for year, month, and day that form a valid calendar
date under `domain/Y/M/D.json` classify successfully. -/
theorem parse_path_date_variable_width (root : List String)
    (dom y m dd : String) (hy : strIsDigit y = true)
    (hm : strIsDigit m = true) (hd : strIsDigit dd = true)
    (hv : (⟨strToNat y, strToNat m, strToNat dd⟩ : Date).valid = true) :
    parse_path_date root (root ++ [dom, y, m, dd ++ ".json"]) =
      some (dom, ⟨strToNat y, strToNat m, strToNat dd⟩) := by
  unfold parse_path_date
  rw [relativeTo_append]
  dsimp only
  have hij : is_json (root ++ [dom, y, m, dd ++ ".json"]) = true := by
    have hsplit : root ++ [dom, y, m, dd ++ ".json"] =
        (root ++ [dom, y, m]) ++ [dd ++ ".json"] := by
      simp
    rw [hsplit]
    exact is_json_digits_json _ dd hd
  rw [hij, hy, hm]
  simp only [Bool.and_self, if_true]
  rw [pyStem_digits_json dd hd, hd]
  simp only [if_true]
  rw [hv]
  rfl

/-- Witness for C10: `math/24/1/5.json` classifies as the date 0024-01-05
in domain `math`. -/
theorem parse_path_date_variable_width_witness :
    parse_path_date ["r"] (["r"] ++ ["math", "24", "1", "5" ++ ".json"]) =
      some ("math", ⟨24, 1, 5⟩) :=
  parse_path_date_variable_width ["r"] "math" "24" "1" "5" (by decide)
    (by decide) (by decide) (by decide)

/-- Witness for C5: with cutoff 2024-01-15 and today 2024-03-01, a file
dated exactly at the cutoff is counted within the window. -/
theorem window_boundary_inclusive_witness :
    (stepFile [] ⟨2024, 1, 15⟩ ⟨2024, 3, 1⟩ ["math", "2024", "01"]
      initState ⟨"15.json", .json (.obj []), "M"⟩).total_within_window =
      initState.total_within_window + 1 := by
  have h := window_boundary_inclusive [] ["math", "2024", "01"]
    ⟨2024, 1, 15⟩ ⟨2024, 3, 1⟩ initState ⟨"15.json", .json (.obj []), "M"⟩
    "math" ⟨2024, 1, 15⟩ (by rfl)
  exact h.1 rfl (by decide)

end Summarize
